import Mathlib

/-!
# Verification of the `replicant` monophonic synthesizer core

Shallow embedding of `src/envelope.rs` (the ADSR envelope engine) and
`src/lib.rs` (the mono voice processor) in Lean 4.

Numeric modelling: the Rust source computes with `f64`.  We model `f64`
arithmetic with exact rational arithmetic (`ℚ`) for the envelope and voice
state, and with real arithmetic (`ℝ`) for the pitch mapping and the sine
oscillator (which use transcendental functions).  Rounding error of binary
floating point is abstracted away; all claims are settled in this exact
semantics.

Rust's `%` on non-negative `f64` operands is `x - y * trunc (x / y)`,
modelled by `fmod` below.
-/

set_option autoImplicit false

namespace Replicant

/-- Truncation toward zero of a rational, as Rust's float-to-float `%` uses. -/
def ftrunc (q : ℚ) : ℤ :=
  if 0 ≤ q then ⌊q⌋ else ⌈q⌉

/-- Rust's `%` on `f64`: `x - y * trunc (x / y)`. -/
def fmod (x y : ℚ) : ℚ :=
  x - y * (ftrunc (x / y) : ℚ)

/-- `fn clamp(a: f64, x: f64, b: f64) -> f64 { a.max(x.min(b)) }` -/
def clamp (a x b : ℚ) : ℚ :=
  max a (min x b)

/-- `fn lerp(a: f64, b: f64, t: f64) -> f64 { a + (b - a) * t }` -/
def lerp (a b t : ℚ) : ℚ :=
  a + (b - a) * t

/-- `fn lerp_down(b: f64, a: f64, t: f64) -> f64 { b - (b - a) * t }` -/
def lerp_down (b a t : ℚ) : ℚ :=
  b - (b - a) * t

/-- `enum ADSRPhase { Attack, Decay, Sustain, Release }` -/
inductive ADSRPhase where
  | Attack
  | Decay
  | Sustain
  | Release
  deriving DecidableEq, Repr

/-- The four ADSR scalars (`ADSRParams` in the source; the atomics are
modelled as plain rationals since the embedding is single-threaded). -/
structure ADSRParams where
  attack : ℚ
  decay : ℚ
  sustain : ℚ
  release : ℚ
  deriving DecidableEq, Repr

/-- `struct ADSREnvelope` -/
structure ADSREnvelope where
  current_phase : ADSRPhase
  phase_elapsed : ℚ
  note_on_volume : ℚ
  note_off_volume : ℚ
  deriving DecidableEq, Repr

/-- The default parameter values from `ADSREnvelope::new`:
`(attack, decay, sustain, release) = (0.0005, 0.0005, 1.0, 0.0005)`. -/
def defaultParams : ADSRParams :=
  { attack := 1 / 2000
    decay := 1 / 2000
    sustain := 1
    release := 1 / 2000 }

/-- `ADSREnvelope::new()`: begins at the end of the release phase
(`current_phase = Release`, `phase_elapsed = release = 0.0005`,
`note_on_volume = 0.0`, `note_off_volume = sustain = 1.0`). -/
def ADSREnvelope.new : ADSREnvelope :=
  { current_phase := ADSRPhase.Release
    phase_elapsed := 1 / 2000
    note_on_volume := 0
    note_off_volume := 1 }

/-- `ADSREnvelope::alpha`: the current amplitude, by phase. -/
def ADSREnvelope.alpha (e : ADSREnvelope) (p : ADSRParams) : ℚ :=
  match e.current_phase with
  | ADSRPhase.Attack => lerp e.note_on_volume 1 (e.phase_elapsed / p.attack)
  | ADSRPhase.Decay => lerp_down 1 p.sustain (e.phase_elapsed / p.decay)
  | ADSRPhase.Sustain => p.sustain
  | ADSRPhase.Release =>
      clamp 0 (lerp_down e.note_off_volume 0 (e.phase_elapsed / p.release)) 1

/-- `ADSREnvelope::note_on(note_on_volume)`. -/
def ADSREnvelope.note_on (e : ADSREnvelope) (v : ℚ) : ADSREnvelope :=
  { e with
    note_on_volume := v
    current_phase := ADSRPhase.Attack
    phase_elapsed := 0 }

/-- `ADSREnvelope::note_off()`: captures the live amplitude into
`note_off_volume`, then transitions to Release with `phase_elapsed = 0`. -/
def ADSREnvelope.note_off (e : ADSREnvelope) (p : ADSRParams) : ADSREnvelope :=
  { e with
    note_off_volume := e.alpha p
    current_phase := ADSRPhase.Release
    phase_elapsed := 0 }

/-- `ADSREnvelope::inc_timer(dt)`: advances `phase_elapsed` by `dt`, then
performs the Attack→Decay check followed by the Decay→Sustain check, each
with the modulo carry-over of the source. -/
def ADSREnvelope.inc_timer (e : ADSREnvelope) (dt : ℚ) (p : ADSRParams) : ADSREnvelope :=
  let e1 : ADSREnvelope := { e with phase_elapsed := e.phase_elapsed + dt }
  let e2 : ADSREnvelope :=
    if e1.current_phase = ADSRPhase.Attack ∧ p.attack < e1.phase_elapsed then
      { e1 with
        current_phase := ADSRPhase.Decay
        phase_elapsed := fmod e1.phase_elapsed p.attack }
    else e1
  if e2.current_phase = ADSRPhase.Decay ∧ p.decay < e2.phase_elapsed then
    { e2 with
      current_phase := ADSRPhase.Sustain
      phase_elapsed := fmod e2.phase_elapsed p.decay }
  else e2

/-- `pub const TAU: f64 = PI * 2.0;` -/
noncomputable def TAU : ℝ := Real.pi * 2

/-- The value of `pitch as i8` for a `u8` pitch (two's-complement cast). -/
def u8_as_i8 (pitch : ℕ) : ℤ :=
  if pitch < 128 then (pitch : ℤ) else (pitch : ℤ) - 256

/-- `fn midi_pitch_to_freq(pitch: u8) -> f64`:
`((pitch as i8 - 69) / 12).exp2() * 440.0`, in real arithmetic
(`exp2 x = 2 ^ x` via the real power). -/
noncomputable def midi_pitch_to_freq (pitch : ℕ) : ℝ :=
  (2 : ℝ) ^ ((((u8_as_i8 pitch - 69 : ℤ) : ℝ)) / 12) * 440

/-- `struct MonoReplicant` (the `Plugin` host glue is out of scope; the ADSR
parameters are threaded explicitly, as the atomically shared cells of the
source hold them). -/
structure MonoReplicant where
  sample_rate : ℚ
  time : ℚ
  note : ℕ
  envelope : ADSREnvelope
  deriving DecidableEq, Repr

/-- `impl Default for MonoReplicant`. -/
def MonoReplicant.default : MonoReplicant :=
  { sample_rate := 44100
    time := 0
    note := 0
    envelope := ADSREnvelope.new }

/-- `MonoReplicant::time_per_sample`. -/
def MonoReplicant.time_per_sample (m : MonoReplicant) : ℚ :=
  1 / m.sample_rate

/-- `MonoReplicant::note_on`: retriggers the envelope with its own current
amplitude, then records the note number. -/
def MonoReplicant.note_on (m : MonoReplicant) (p : ADSRParams) (note : ℕ) : MonoReplicant :=
  { m with
    envelope := m.envelope.note_on (m.envelope.alpha p)
    note := note }

/-- `MonoReplicant::note_off` (the note argument is ignored by the source). -/
def MonoReplicant.note_off (m : MonoReplicant) (p : ADSRParams) (_note : ℕ) : MonoReplicant :=
  { m with envelope := m.envelope.note_off p }

/-- `MonoReplicant::process_midi_event`: matches the full status byte
`data[0]` against `128` (note off) and `144` (note on); anything else is
ignored. -/
def MonoReplicant.process_midi_event (m : MonoReplicant) (p : ADSRParams)
    (d0 d1 _d2 : ℕ) : MonoReplicant :=
  if d0 = 128 then m.note_off p d1
  else if d0 = 144 then m.note_on p d1
  else m

/-- The state mutation of one iteration of the loop in
`MonoReplicant::process`: after reading the output sample, the oscillator
time advances by `time_per_sample` and the envelope timer is incremented by
the same amount. -/
def MonoReplicant.tick (m : MonoReplicant) (p : ADSRParams) : MonoReplicant :=
  { m with
    time := m.time + m.time_per_sample
    envelope := m.envelope.inc_timer m.time_per_sample p }

/-- `n` iterations of the `process` loop (producing `n` samples). -/
def MonoReplicant.run (m : MonoReplicant) (p : ADSRParams) : ℕ → MonoReplicant
  | 0 => m
  | n + 1 => (m.run p n).tick p

/-- The left output sample computed by one iteration of `process` at state
`m`: `(time + 0.01 * midi_pitch_to_freq(note) * 0.99 * TAU).sin() * alpha`. -/
noncomputable def MonoReplicant.output_left (m : MonoReplicant) (p : ADSRParams) : ℝ :=
  Real.sin ((m.time : ℝ) + 1 / 100 * midi_pitch_to_freq m.note * (99 / 100) * TAU)
    * ((m.envelope.alpha p : ℚ) : ℝ)

/-- The right output sample computed by one iteration of `process` at state
`m`: `(time * midi_pitch_to_freq(note) * 1.01 * TAU).sin() * alpha`. -/
noncomputable def MonoReplicant.output_right (m : MonoReplicant) (p : ADSRParams) : ℝ :=
  Real.sin ((m.time : ℝ) * midi_pitch_to_freq m.note * (101 / 100) * TAU)
    * ((m.envelope.alpha p : ℚ) : ℝ)

/-- The parameter discipline assumed by the spec: positive durations and a
sustain level in `[0, 1]`. -/
structure ValidParams (p : ADSRParams) : Prop where
  attack_pos : 0 < p.attack
  decay_pos : 0 < p.decay
  sustain_nonneg : 0 ≤ p.sustain
  sustain_le_one : p.sustain ≤ 1
  release_pos : 0 < p.release

/-- The state invariant of the envelope: non-negative timer, captured
volumes in `[0, 1]`, and the timer bounded by the phase duration in the
time-driven phases. -/
structure Inv (p : ADSRParams) (e : ADSREnvelope) : Prop where
  pe_nonneg : 0 ≤ e.phase_elapsed
  nov_nonneg : 0 ≤ e.note_on_volume
  nov_le_one : e.note_on_volume ≤ 1
  nof_nonneg : 0 ≤ e.note_off_volume
  nof_le_one : e.note_off_volume ≤ 1
  attack_bound : e.current_phase = ADSRPhase.Attack → e.phase_elapsed ≤ p.attack
  decay_bound : e.current_phase = ADSRPhase.Decay → e.phase_elapsed ≤ p.decay

/-- Envelope states reachable from the freshly constructed envelope by the
caller protocol of the source: `note_on` passing the envelope's own current
amplitude (as `MonoReplicant::note_on` does), `note_off`, and time
advancement by a non-negative `dt`. -/
inductive Reachable (p : ADSRParams) : ADSREnvelope → Prop where
  | init : Reachable p ADSREnvelope.new
  | note_on {e : ADSREnvelope} :
      Reachable p e → Reachable p (e.note_on (e.alpha p))
  | note_off {e : ADSREnvelope} :
      Reachable p e → Reachable p (e.note_off p)
  | advance {e : ADSREnvelope} {dt : ℚ} :
      Reachable p e → 0 ≤ dt → Reachable p (e.inc_timer dt p)

/-- The parameters of the end-to-end scenario:
`attack = decay = release = 0.01`, `sustain = 0.5`.  The program stores the
ADSR parameters in `f32` cells (`AtomicFloat`), so the stored value of the
literal `0.01` is the nearest binary32 number, exactly
`5368709 / 2^29 = 0.00999999977648258209228515625` — strictly below `1/100`,
which is what makes the strict boundary comparison of `inc_timer` fire on
the 10th sample.  `0.5` is exact in `f32`. -/
def scenarioParams : ADSRParams :=
  { attack := 5368709 / 536870912
    decay := 5368709 / 536870912
    sustain := 1 / 2
    release := 5368709 / 536870912 }

/-- The scenario voice just after `note_on(0.0)` at `t = 0`, with
`sample_rate = 1000` (so `time_per_sample = 0.001`). -/
def scenarioStart : MonoReplicant :=
  { sample_rate := 1000
    time := 0
    note := 69
    envelope := ADSREnvelope.new.note_on 0 }

/-- The scenario voice after 30 produced samples followed by `note_off()`. -/
def scenarioAfterOff : MonoReplicant :=
  (scenarioStart.run scenarioParams 30).note_off scenarioParams 69

/-! ## Helper lemmas -/

lemma fmod_eq_mul_fract {x y : ℚ} (hx : 0 ≤ x) (hy : 0 < y) :
    fmod x y = y * Int.fract (x / y) := by
  have h0 : 0 ≤ x / y := div_nonneg hx hy.le
  have hxy : y * (x / y) = x := by field_simp
  rw [Int.fract]
  simp only [fmod, ftrunc, if_pos h0]
  rw [mul_sub, hxy]

lemma fmod_nonneg {x y : ℚ} (hx : 0 ≤ x) (hy : 0 < y) : 0 ≤ fmod x y := by
  rw [fmod_eq_mul_fract hx hy]
  exact mul_nonneg hy.le (Int.fract_nonneg _)

lemma fmod_lt {x y : ℚ} (hx : 0 ≤ x) (hy : 0 < y) : fmod x y < y := by
  rw [fmod_eq_mul_fract hx hy]
  calc y * Int.fract (x / y) < y * 1 :=
        (mul_lt_mul_left hy).mpr (Int.fract_lt_one _)
    _ = y := mul_one y

/-- Under valid parameters and the state invariant, the amplitude is in
`[0, 1]`. -/
lemma alpha_mem {p : ADSRParams} {e : ADSREnvelope}
    (hp : ValidParams p) (he : Inv p e) :
    0 ≤ e.alpha p ∧ e.alpha p ≤ 1 := by
  obtain ⟨ph, pe, nov, nof⟩ := e
  obtain ⟨hpe, hnov0, hnov1, hnof0, hnof1, hA, hD⟩ := he
  cases ph with
  | Attack =>
      have hle := hA rfl
      have ht0 : 0 ≤ pe / p.attack := div_nonneg hpe hp.attack_pos.le
      have ht1 : pe / p.attack ≤ 1 := (div_le_one hp.attack_pos).mpr hle
      simp only [ADSREnvelope.alpha, lerp]
      constructor <;> nlinarith
  | Decay =>
      have hle := hD rfl
      have ht0 : 0 ≤ pe / p.decay := div_nonneg hpe hp.decay_pos.le
      have ht1 : pe / p.decay ≤ 1 := (div_le_one hp.decay_pos).mpr hle
      simp only [ADSREnvelope.alpha, lerp_down]
      constructor <;> nlinarith [hp.sustain_nonneg, hp.sustain_le_one]
  | Sustain =>
      simp only [ADSREnvelope.alpha]
      exact ⟨hp.sustain_nonneg, hp.sustain_le_one⟩
  | Release =>
      simp only [ADSREnvelope.alpha, clamp]
      exact ⟨le_max_left 0 _, max_le zero_le_one (min_le_right _ 1)⟩

lemma inv_new (p : ADSRParams) : Inv p ADSREnvelope.new :=
  ⟨by norm_num [ADSREnvelope.new], le_refl 0, zero_le_one, zero_le_one, le_refl 1,
    fun h => ADSRPhase.noConfusion h, fun h => ADSRPhase.noConfusion h⟩

lemma inv_note_on {p : ADSRParams} {e : ADSREnvelope}
    (hp : ValidParams p) (he : Inv p e) :
    Inv p (e.note_on (e.alpha p)) := by
  obtain ⟨h0, h1⟩ := alpha_mem hp he
  exact ⟨le_refl 0, h0, h1, he.nof_nonneg, he.nof_le_one,
    fun _ => hp.attack_pos.le, fun h => ADSRPhase.noConfusion h⟩

lemma inv_note_off {p : ADSRParams} {e : ADSREnvelope}
    (hp : ValidParams p) (he : Inv p e) :
    Inv p (e.note_off p) := by
  obtain ⟨h0, h1⟩ := alpha_mem hp he
  exact ⟨le_refl 0, he.nov_nonneg, he.nov_le_one, h0, h1,
    fun h => ADSRPhase.noConfusion h, fun h => ADSRPhase.noConfusion h⟩

lemma inv_inc_timer {p : ADSRParams} {e : ADSREnvelope} {dt : ℚ}
    (hp : ValidParams p) (he : Inv p e) (hdt : 0 ≤ dt) :
    Inv p (e.inc_timer dt p) := by
  obtain ⟨ph, pe, nov, nof⟩ := e
  obtain ⟨hpe, hnov0, hnov1, hnof0, hnof1, hA, hD⟩ := he
  have hsum : 0 ≤ pe + dt := add_nonneg hpe hdt
  simp only [ADSREnvelope.inc_timer]
  split_ifs with h1 h2 h2
  · exact ⟨fmod_nonneg (fmod_nonneg hsum hp.attack_pos) hp.decay_pos,
      hnov0, hnov1, hnof0, hnof1,
      fun h => ADSRPhase.noConfusion h, fun h => ADSRPhase.noConfusion h⟩
  · refine ⟨fmod_nonneg hsum hp.attack_pos, hnov0, hnov1, hnof0, hnof1,
      fun h => ADSRPhase.noConfusion h, fun _ => ?_⟩
    exact not_lt.mp fun hlt => h2 ⟨rfl, hlt⟩
  · exact ⟨fmod_nonneg hsum hp.decay_pos, hnov0, hnov1, hnof0, hnof1,
      fun h => ADSRPhase.noConfusion h, fun h => ADSRPhase.noConfusion h⟩
  · refine ⟨hsum, hnov0, hnov1, hnof0, hnof1, fun h => ?_, fun h => ?_⟩
    · exact not_lt.mp fun hlt => h1 ⟨h, hlt⟩
    · exact not_lt.mp fun hlt => h2 ⟨h, hlt⟩

lemma decay_ne_attack : ADSRPhase.Decay ≠ ADSRPhase.Attack :=
  fun h => ADSRPhase.noConfusion h

lemma sustain_ne_attack : ADSRPhase.Sustain ≠ ADSRPhase.Attack :=
  fun h => ADSRPhase.noConfusion h

lemma sustain_ne_decay : ADSRPhase.Sustain ≠ ADSRPhase.Decay :=
  fun h => ADSRPhase.noConfusion h

lemma release_ne_attack : ADSRPhase.Release ≠ ADSRPhase.Attack :=
  fun h => ADSRPhase.noConfusion h

lemma release_ne_decay : ADSRPhase.Release ≠ ADSRPhase.Decay :=
  fun h => ADSRPhase.noConfusion h

lemma inc_timer_attack_stay {p : ADSRParams} {pe nov nof dt : ℚ}
    (h : pe + dt ≤ p.attack) :
    (⟨ADSRPhase.Attack, pe, nov, nof⟩ : ADSREnvelope).inc_timer dt p
      = ⟨ADSRPhase.Attack, pe + dt, nov, nof⟩ := by
  simp [ADSREnvelope.inc_timer, not_lt.mpr h]

lemma inc_timer_attack_to_decay {p : ADSRParams} {pe nov nof dt : ℚ}
    (h : p.attack < pe + dt) (h2 : fmod (pe + dt) p.attack ≤ p.decay) :
    (⟨ADSRPhase.Attack, pe, nov, nof⟩ : ADSREnvelope).inc_timer dt p
      = ⟨ADSRPhase.Decay, fmod (pe + dt) p.attack, nov, nof⟩ := by
  simp [ADSREnvelope.inc_timer, h, not_lt.mpr h2]

lemma inc_timer_decay_stay {p : ADSRParams} {pe nov nof dt : ℚ}
    (h : pe + dt ≤ p.decay) :
    (⟨ADSRPhase.Decay, pe, nov, nof⟩ : ADSREnvelope).inc_timer dt p
      = ⟨ADSRPhase.Decay, pe + dt, nov, nof⟩ := by
  simp [ADSREnvelope.inc_timer, not_lt.mpr h]

lemma inc_timer_decay_to_sustain {p : ADSRParams} {pe nov nof dt : ℚ}
    (h : p.decay < pe + dt) :
    (⟨ADSRPhase.Decay, pe, nov, nof⟩ : ADSREnvelope).inc_timer dt p
      = ⟨ADSRPhase.Sustain, fmod (pe + dt) p.decay, nov, nof⟩ := by
  simp [ADSREnvelope.inc_timer, h]

lemma inc_timer_sustain {p : ADSRParams} {pe nov nof dt : ℚ} :
    (⟨ADSRPhase.Sustain, pe, nov, nof⟩ : ADSREnvelope).inc_timer dt p
      = ⟨ADSRPhase.Sustain, pe + dt, nov, nof⟩ := by
  simp [ADSREnvelope.inc_timer]

lemma inc_timer_release {p : ADSRParams} {pe nov nof dt : ℚ} :
    (⟨ADSRPhase.Release, pe, nov, nof⟩ : ADSREnvelope).inc_timer dt p
      = ⟨ADSRPhase.Release, pe + dt, nov, nof⟩ := by
  simp [ADSREnvelope.inc_timer]

/-- The amplitude at the start of the Release phase is the captured
`note_off_volume`, provided the latter lies in `[0, 1]`. -/
lemma alpha_release_start (p : ADSRParams) (nov v : ℚ) (h0 : 0 ≤ v) (h1 : v ≤ 1) :
    (⟨ADSRPhase.Release, 0, nov, v⟩ : ADSREnvelope).alpha p = v := by
  simp [ADSREnvelope.alpha, lerp_down, clamp, min_eq_left h1, max_eq_right h0]

lemma reachable_inv {p : ADSRParams} {e : ADSREnvelope}
    (hp : ValidParams p) (he : Reachable p e) : Inv p e := by
  induction he with
  | init => exact inv_new p
  | note_on _ ih => exact inv_note_on hp ih
  | note_off _ ih => exact inv_note_off hp ih
  | advance _ hdt ih => exact inv_inc_timer hp ih hdt

/-! ## Claim theorems -/

/-- Claim C1: for every envelope state reachable from the freshly
constructed envelope by `note_on` (with the envelope's own current
amplitude), `note_off` and `advance_time` calls, under positive
attack/decay/release durations and a sustain level in `[0, 1]`, the
amplitude read immediately after an `advance_time` call is in `[0, 1]`. -/
theorem amplitude_bounds_after_advance {p : ADSRParams} {e : ADSREnvelope} {dt : ℚ}
    (hp : ValidParams p) (he : Reachable p e) (hdt : 0 ≤ dt) :
    0 ≤ (e.inc_timer dt p).alpha p ∧ (e.inc_timer dt p).alpha p ≤ 1 :=
  alpha_mem hp (inv_inc_timer hp (reachable_inv hp he) hdt)

/-- Witness for C1: the fresh envelope advanced by `dt = 1` under parameters
`(1, 1, 1/2, 1)` has amplitude in `[0, 1]`. -/
theorem amplitude_bounds_after_advance_witness :
    0 ≤ (ADSREnvelope.new.inc_timer 1 ⟨1, 1, 1/2, 1⟩).alpha ⟨1, 1, 1/2, 1⟩ ∧
      (ADSREnvelope.new.inc_timer 1 ⟨1, 1, 1/2, 1⟩).alpha ⟨1, 1, 1/2, 1⟩ ≤ 1 :=
  amplitude_bounds_after_advance
    ⟨by norm_num, by norm_num, by norm_num, by norm_num, by norm_num⟩
    Reachable.init (by norm_num)

/-- Counterexample to C2 as stated: in the transient Attack state with
`phase_elapsed = 2` under attack duration 1 and `note_on_volume = 0`,
the amplitude before `note_off()` is `2`, but after `note_off()` the
Release branch clamps it to `1`. -/
theorem note_off_amplitude_counterexample :
    ¬ (((⟨ADSRPhase.Attack, 2, 0, 0⟩ : ADSREnvelope).note_off ⟨1, 1, 1, 1⟩).alpha ⟨1, 1, 1, 1⟩
        = (⟨ADSRPhase.Attack, 2, 0, 0⟩ : ADSREnvelope).alpha ⟨1, 1, 1, 1⟩) := by
  norm_num [ADSREnvelope.note_off, ADSREnvelope.alpha, lerp, lerp_down, clamp]

/-- Claim C2 (amended): whenever the amplitude just before `note_off()` is
in `[0, 1]` — which holds in every steady state — reading the amplitude
immediately after `note_off()` returns exactly the value from just before
the call. -/
theorem note_off_amplitude_continuity {p : ADSRParams} {e : ADSREnvelope}
    (hr : 0 < p.release) (h0 : 0 ≤ e.alpha p) (h1 : e.alpha p ≤ 1) :
    (e.note_off p).alpha p = e.alpha p := by
  have hoff : e.note_off p
      = ⟨ADSRPhase.Release, 0, e.note_on_volume, e.alpha p⟩ := rfl
  rw [hoff, alpha_release_start p e.note_on_volume (e.alpha p) h0 h1]

/-- Witness for C2: a Sustain-phase envelope at sustain level `1/2` keeps
amplitude `1/2` across `note_off()`. -/
theorem note_off_amplitude_continuity_witness :
    ((⟨ADSRPhase.Sustain, 0, 0, 0⟩ : ADSREnvelope).note_off ⟨1, 1, 1/2, 1⟩).alpha ⟨1, 1, 1/2, 1⟩
      = (⟨ADSRPhase.Sustain, 0, 0, 0⟩ : ADSREnvelope).alpha ⟨1, 1, 1/2, 1⟩ :=
  note_off_amplitude_continuity (by norm_num)
    (by norm_num [ADSREnvelope.alpha]) (by norm_num [ADSREnvelope.alpha])

/-- Claim C3: for every envelope state and every captured amplitude `v`,
with a positive attack duration, `note_on(v)` followed immediately by
`current_amplitude()` returns exactly `v` (the attack interpolation starts
at its left endpoint since `phase_elapsed` was reset to 0). -/
theorem note_on_amplitude_continuity {p : ADSRParams} (e : ADSREnvelope) (v : ℚ)
    (ha : 0 < p.attack) :
    (e.note_on v).alpha p = v := by
  simp [ADSREnvelope.note_on, ADSREnvelope.alpha, lerp]

/-- Witness for C3: retriggering the fresh envelope at amplitude `1/2`
under parameters `(1, 1, 1, 1)` reads back exactly `1/2`. -/
theorem note_on_amplitude_continuity_witness :
    (ADSREnvelope.new.note_on (1/2)).alpha ⟨1, 1, 1, 1⟩ = 1/2 :=
  note_on_amplitude_continuity ADSREnvelope.new (1/2) (by norm_num)

/-- Claim C6: in the Release phase, once `phase_elapsed` exceeds the
release duration by any margin, the amplitude is exactly `0` (never
negative), for any `note_off_volume` in `[0, 1]`. -/
theorem release_floor {p : ADSRParams} {e : ADSREnvelope}
    (hph : e.current_phase = ADSRPhase.Release) (hr : 0 < p.release)
    (hpe : p.release < e.phase_elapsed)
    (h0 : 0 ≤ e.note_off_volume) (h1 : e.note_off_volume ≤ 1) :
    e.alpha p = 0 := by
  obtain ⟨ph, pe, nov, nof⟩ := e
  subst hph
  simp only [ADSREnvelope.alpha, lerp_down, clamp] at *
  have hfrac : 1 ≤ pe / p.release := le_of_lt ((one_lt_div hr).mpr hpe)
  have hx : nof - (nof - 0) * (pe / p.release) ≤ 0 := by nlinarith
  rw [min_eq_left (hx.trans zero_le_one), max_eq_left hx]

/-- Witness for C6: a Release-phase envelope with `note_off_volume = 1/2`
and `phase_elapsed = 10` under release duration 1 has amplitude `0`. -/
theorem release_floor_witness :
    (⟨ADSRPhase.Release, 10, 0, 1/2⟩ : ADSREnvelope).alpha ⟨1, 1, 1, 1⟩ = 0 :=
  release_floor rfl (by norm_num) (by norm_num) (by norm_num) (by norm_num)

/-- Claim C10: a MIDI event whose status byte is neither exactly 128 nor
exactly 144 leaves the entire voice state unchanged; in particular note
events on MIDI channels other than 0 (status bytes 129–143 and 145–159)
are ignored, since the source matches the full byte. -/
theorem ignore_other_status (m : MonoReplicant) (p : ADSRParams) (d0 d1 d2 : ℕ)
    (h128 : d0 ≠ 128) (h144 : d0 ≠ 144) :
    m.process_midi_event p d0 d1 d2 = m := by
  simp [MonoReplicant.process_midi_event, h128, h144]

/-- Witness for C10: status byte 145 (note-on, MIDI channel 1) leaves the
default voice unchanged. -/
theorem ignore_other_status_witness :
    MonoReplicant.default.process_midi_event defaultParams 145 60 100
      = MonoReplicant.default :=
  ignore_other_status MonoReplicant.default defaultParams 145 60 100
    (by norm_num) (by norm_num)

/-- Counterexample to C4 as stated: with attack duration 1, starting fresh
with `note_on(0.0)` and advancing time by `attack/2` twice reaches
`phase_elapsed = attack` exactly, and the strict comparison of `inc_timer`
does not fire: the phase is still Attack, not Decay. -/
theorem attack_half_twice_counterexample :
    (((ADSREnvelope.new.note_on 0).inc_timer (1/2) ⟨1, 1, 1, 1⟩).inc_timer
        (1/2) ⟨1, 1, 1, 1⟩).current_phase ≠ ADSRPhase.Decay := by
  norm_num [ADSREnvelope.new, ADSREnvelope.note_on, ADSREnvelope.inc_timer,
    fmod, ftrunc]
  decide

/-- Claim C4 (amended): starting fresh with attack duration `a > 0` (and
`a / 2` not exceeding the decay duration), `note_on(0.0)` followed by two
`advance_time(a/2)` calls leaves the envelope in Attack with
`phase_elapsed = a`; the transition to Decay happens only once the timer
strictly exceeds `a`, e.g. on a third `advance_time(a/2)` call, and then
`phase_elapsed` carries over to `a/2` (the excess modulo `a`), not 0. -/
theorem attack_half_steps_carry {p : ADSRParams}
    (ha : 0 < p.attack) (hd : p.attack ≤ 2 * p.decay) :
    (((ADSREnvelope.new.note_on 0).inc_timer (p.attack / 2) p).inc_timer
          (p.attack / 2) p).current_phase = ADSRPhase.Attack ∧
      (((ADSREnvelope.new.note_on 0).inc_timer (p.attack / 2) p).inc_timer
          (p.attack / 2) p).phase_elapsed = p.attack ∧
      ((((ADSREnvelope.new.note_on 0).inc_timer (p.attack / 2) p).inc_timer
            (p.attack / 2) p).inc_timer (p.attack / 2) p).current_phase
          = ADSRPhase.Decay ∧
      ((((ADSREnvelope.new.note_on 0).inc_timer (p.attack / 2) p).inc_timer
            (p.attack / 2) p).inc_timer (p.attack / 2) p).phase_elapsed
          = p.attack / 2 := by
  have hne : p.attack ≠ 0 := ha.ne'
  have e0 : ADSREnvelope.new.note_on 0 = ⟨ADSRPhase.Attack, 0, 0, 1⟩ := rfl
  have h1 : (ADSREnvelope.new.note_on 0).inc_timer (p.attack / 2) p
      = ⟨ADSRPhase.Attack, p.attack / 2, 0, 1⟩ := by
    rw [e0, inc_timer_attack_stay (by linarith), zero_add]
  have hsum : p.attack / 2 + p.attack / 2 = p.attack := by ring
  have h2 : ((ADSREnvelope.new.note_on 0).inc_timer (p.attack / 2) p).inc_timer
        (p.attack / 2) p = ⟨ADSRPhase.Attack, p.attack, 0, 1⟩ := by
    rw [h1, inc_timer_attack_stay (by linarith), hsum]
  have hover : p.attack < p.attack + p.attack / 2 := by linarith
  have hfmod : fmod (p.attack + p.attack / 2) p.attack = p.attack / 2 := by
    have hq : (p.attack + p.attack / 2) / p.attack = 3 / 2 := by
      field_simp
      ring
    have hfl : (⌊(3:ℚ) / 2⌋ : ℤ) = 1 := by norm_num
    simp only [fmod, ftrunc, hq, if_pos (by norm_num : (0:ℚ) ≤ 3 / 2), hfl]
    push_cast
    ring
  have hle : fmod (p.attack + p.attack / 2) p.attack ≤ p.decay := by
    rw [hfmod]
    linarith
  have h3 : (((ADSREnvelope.new.note_on 0).inc_timer (p.attack / 2) p).inc_timer
        (p.attack / 2) p).inc_timer (p.attack / 2) p
      = ⟨ADSRPhase.Decay, p.attack / 2, 0, 1⟩ := by
    rw [h2, inc_timer_attack_to_decay hover hle, hfmod]
  rw [h3, h2]
  exact ⟨rfl, rfl, rfl, rfl⟩

/-- Witness for C4 (amended): the concrete run with all parameters 1. -/
theorem attack_half_steps_carry_witness :
    (((ADSREnvelope.new.note_on 0).inc_timer ((1:ℚ) / 2) ⟨1, 1, 1, 1⟩).inc_timer
          ((1:ℚ) / 2) ⟨1, 1, 1, 1⟩).current_phase = ADSRPhase.Attack ∧
      (((ADSREnvelope.new.note_on 0).inc_timer ((1:ℚ) / 2) ⟨1, 1, 1, 1⟩).inc_timer
          ((1:ℚ) / 2) ⟨1, 1, 1, 1⟩).phase_elapsed = 1 ∧
      ((((ADSREnvelope.new.note_on 0).inc_timer ((1:ℚ) / 2) ⟨1, 1, 1, 1⟩).inc_timer
            ((1:ℚ) / 2) ⟨1, 1, 1, 1⟩).inc_timer ((1:ℚ) / 2) ⟨1, 1, 1, 1⟩).current_phase
          = ADSRPhase.Decay ∧
      ((((ADSREnvelope.new.note_on 0).inc_timer ((1:ℚ) / 2) ⟨1, 1, 1, 1⟩).inc_timer
            ((1:ℚ) / 2) ⟨1, 1, 1, 1⟩).inc_timer ((1:ℚ) / 2) ⟨1, 1, 1, 1⟩).phase_elapsed
          = 1 / 2 :=
  attack_half_steps_carry (by norm_num) (by norm_num)

/-- Counterexample to C5 as stated: with all parameters 1, retriggering the
fresh envelope (passing its own amplitude) and then advancing time by
exactly the attack duration leaves the envelope in Attack with
`phase_elapsed = attack`, which is not strictly less than the attack
duration. -/
theorem phase_elapsed_strict_counterexample :
    ((ADSREnvelope.new.note_on (ADSREnvelope.new.alpha ⟨1, 1, 1, 1⟩)).inc_timer
          1 ⟨1, 1, 1, 1⟩).current_phase = ADSRPhase.Attack ∧
      ¬ (((ADSREnvelope.new.note_on (ADSREnvelope.new.alpha ⟨1, 1, 1, 1⟩)).inc_timer
          1 ⟨1, 1, 1, 1⟩).phase_elapsed < (1:ℚ)) := by
  norm_num [ADSREnvelope.new, ADSREnvelope.note_on, ADSREnvelope.alpha,
    ADSREnvelope.inc_timer, lerp, lerp_down, clamp, fmod, ftrunc]

/-- Claim C5 (amended): immediately after any `advance_time` call,
`phase_elapsed` is at most (not strictly less than) the duration of the
current phase — the attack duration in Attack, the decay duration in
Decay — with equality exactly at the phase boundary; Sustain and Release
are unconstrained. This holds for every state and every `dt`. -/
theorem phase_elapsed_le_duration (e : ADSREnvelope) (dt : ℚ) (p : ADSRParams) :
    ((e.inc_timer dt p).current_phase = ADSRPhase.Attack →
        (e.inc_timer dt p).phase_elapsed ≤ p.attack) ∧
      ((e.inc_timer dt p).current_phase = ADSRPhase.Decay →
        (e.inc_timer dt p).phase_elapsed ≤ p.decay) := by
  obtain ⟨ph, pe, nov, nof⟩ := e
  simp only [ADSREnvelope.inc_timer]
  split_ifs with h1 h2 h2 <;>
    refine ⟨fun h => ?_, fun h => ?_⟩ <;>
      first
        | exact h.elim
        | exact not_lt.mp fun hlt => h2 ⟨trivial, hlt⟩
        | exact not_lt.mp fun hlt => h1 ⟨h, hlt⟩
        | exact not_lt.mp fun hlt => h2 ⟨h, hlt⟩

/-- Witness for C5 (amended): after advancing the two concrete states below
by `1/2` under parameters `(1, 1, 1, 1)`, the timer is at most the phase
duration, both in Attack and in Decay. -/
theorem phase_elapsed_le_duration_witness :
    ((⟨ADSRPhase.Attack, 0, 0, 0⟩ : ADSREnvelope).inc_timer (1/2)
        ⟨1, 1, 1, 1⟩).phase_elapsed ≤ (1:ℚ) ∧
      ((⟨ADSRPhase.Decay, 0, 0, 0⟩ : ADSREnvelope).inc_timer (1/2)
        ⟨1, 1, 1, 1⟩).phase_elapsed ≤ (1:ℚ) :=
  ⟨(phase_elapsed_le_duration ⟨ADSRPhase.Attack, 0, 0, 0⟩ (1/2) ⟨1, 1, 1, 1⟩).1
      (by norm_num [ADSREnvelope.inc_timer]),
    (phase_elapsed_le_duration ⟨ADSRPhase.Decay, 0, 0, 0⟩ (1/2) ⟨1, 1, 1, 1⟩).2
      (by norm_num [ADSREnvelope.inc_timer])⟩

lemma run_add (m : MonoReplicant) (p : ADSRParams) (a b : ℕ) :
    m.run p (a + b) = (m.run p a).run p b := by
  induction b with
  | zero => rfl
  | succ b ih =>
      show (m.run p (a + b)).tick p = ((m.run p a).run p b).tick p
      rw [ih]

set_option maxHeartbeats 2000000 in
lemma scenario_run_10 :
    scenarioStart.run scenarioParams 10
      = ⟨1000, 1 / 100, 69, ⟨ADSRPhase.Decay, 3 / 13421772800, 0, 1⟩⟩ := by
  norm_num [MonoReplicant.run, MonoReplicant.tick, MonoReplicant.time_per_sample,
    ADSREnvelope.inc_timer, fmod, ftrunc, scenarioStart, scenarioParams,
    ADSREnvelope.new, ADSREnvelope.note_on,
    decay_ne_attack, sustain_ne_attack, sustain_ne_decay,
    release_ne_attack, release_ne_decay]

set_option maxHeartbeats 2000000 in
lemma scenario_run_20 :
    scenarioStart.run scenarioParams 20
      = ⟨1000, 1 / 50, 69, ⟨ADSRPhase.Sustain, 3 / 6710886400, 0, 1⟩⟩ := by
  rw [show (20:ℕ) = 10 + 10 by norm_num, run_add, scenario_run_10]
  norm_num [MonoReplicant.run, MonoReplicant.tick, MonoReplicant.time_per_sample,
    ADSREnvelope.inc_timer, fmod, ftrunc, scenarioParams,
    decay_ne_attack, sustain_ne_attack, sustain_ne_decay,
    release_ne_attack, release_ne_decay]

lemma run_sustain_eq (sr t : ℚ) (note : ℕ) (pe nov nof : ℚ)
    (p : ADSRParams) (n : ℕ) :
    MonoReplicant.run ⟨sr, t, note, ⟨ADSRPhase.Sustain, pe, nov, nof⟩⟩ p n
      = ⟨sr, t + n * (1 / sr), note,
          ⟨ADSRPhase.Sustain, pe + n * (1 / sr), nov, nof⟩⟩ := by
  induction n with
  | zero => simp [MonoReplicant.run]
  | succ n ih =>
      show (MonoReplicant.run _ p n).tick p = _
      rw [ih]
      simp only [MonoReplicant.tick, MonoReplicant.time_per_sample,
        inc_timer_sustain]
      simp only [MonoReplicant.mk.injEq, ADSREnvelope.mk.injEq]
      push_cast
      constructor
      all_goals try constructor
      all_goals try constructor
      all_goals try constructor
      all_goals try constructor
      all_goals try constructor
      all_goals first | rfl | ring

lemma scenario_run_30 :
    scenarioStart.run scenarioParams 30
      = ⟨1000, 3 / 100, 69, ⟨ADSRPhase.Sustain, 67108867 / 6710886400, 0, 1⟩⟩ := by
  rw [show (30:ℕ) = 20 + 10 by norm_num, run_add, scenario_run_20, run_sustain_eq]
  norm_num

lemma scenario_after_eq :
    scenarioAfterOff = ⟨1000, 3 / 100, 69, ⟨ADSRPhase.Release, 0, 0, 1 / 2⟩⟩ := by
  unfold scenarioAfterOff
  rw [scenario_run_30]
  norm_num [MonoReplicant.note_off, ADSREnvelope.note_off, ADSREnvelope.alpha,
    scenarioParams]

lemma run_release_eq (sr t : ℚ) (note : ℕ) (pe nov nof : ℚ)
    (p : ADSRParams) (n : ℕ) :
    MonoReplicant.run ⟨sr, t, note, ⟨ADSRPhase.Release, pe, nov, nof⟩⟩ p n
      = ⟨sr, t + n * (1 / sr), note,
          ⟨ADSRPhase.Release, pe + n * (1 / sr), nov, nof⟩⟩ := by
  induction n with
  | zero => simp [MonoReplicant.run]
  | succ n ih =>
      show (MonoReplicant.run _ p n).tick p = _
      rw [ih]
      simp only [MonoReplicant.tick, MonoReplicant.time_per_sample,
        inc_timer_release]
      simp only [MonoReplicant.mk.injEq, ADSREnvelope.mk.injEq]
      push_cast
      constructor
      all_goals try constructor
      all_goals try constructor
      all_goals try constructor
      all_goals try constructor
      all_goals try constructor
      all_goals first | rfl | ring

lemma scenario_after_env_10 :
    (scenarioAfterOff.run scenarioParams 10).envelope
      = ⟨ADSRPhase.Release, 1 / 100, 0, 1 / 2⟩ := by
  rw [scenario_after_eq, run_release_eq]
  norm_num

/-- Claim C7: with sample rate 1000 Hz, attack = decay = release = 0.01
(stored as `f32`, hence exactly `5368709/2^29`, strictly below the f64
timer value `0.01` reached after ten `0.001` increments) and
sustain = 0.5, after `note_on(0.0)` at t = 0: producing 10 samples leaves
the envelope in Decay with amplitude approaching 1.0 at the Attack/Decay
boundary (within `10^-7` of 1); producing 20 more samples leaves it in
Sustain with amplitude 0.5; after `note_off()`, producing 10 more samples
leaves it in Release with amplitude exactly 0 (approximately 0.0). -/
theorem end_to_end_scenario :
    (scenarioStart.run scenarioParams 10).envelope.current_phase = ADSRPhase.Decay ∧
      1 - 1 / 10000000
        < (scenarioStart.run scenarioParams 10).envelope.alpha scenarioParams ∧
      (scenarioStart.run scenarioParams 10).envelope.alpha scenarioParams ≤ 1 ∧
      (scenarioStart.run scenarioParams 30).envelope.current_phase = ADSRPhase.Sustain ∧
      (scenarioStart.run scenarioParams 30).envelope.alpha scenarioParams = 1 / 2 ∧
      (scenarioAfterOff.run scenarioParams 10).envelope.current_phase = ADSRPhase.Release ∧
      (scenarioAfterOff.run scenarioParams 10).envelope.alpha scenarioParams = 0 := by
  rw [scenario_run_10, scenario_run_30, scenario_after_env_10]
  norm_num [ADSREnvelope.alpha, lerp, lerp_down, clamp, scenarioParams]

lemma run_default_eq (n : ℕ) :
    MonoReplicant.default.run defaultParams n
      = { sample_rate := 44100
          time := n * (1 / 44100)
          note := 0
          envelope := ⟨ADSRPhase.Release, 1 / 2000 + n * (1 / 44100), 0, 1⟩ } := by
  have hdef : MonoReplicant.default
      = ⟨44100, 0, 0, ⟨ADSRPhase.Release, 1 / 2000, 0, 1⟩⟩ := rfl
  rw [hdef, run_release_eq]
  norm_num

/-- The amplitude of an expired Release state under the default parameters
is clamped to zero. -/
lemma alpha_release_expired {pe nov : ℚ} (h : 1 / 2000 ≤ pe) :
    (⟨ADSRPhase.Release, pe, nov, 1⟩ : ADSREnvelope).alpha defaultParams = 0 := by
  have ht : (1:ℚ) ≤ pe / ((1:ℚ) / 2000) := by
    rw [le_div_iff (by norm_num : (0:ℚ) < 1 / 2000)]
    linarith
  simp only [ADSREnvelope.alpha, lerp_down, clamp, defaultParams]
  have hx : (1:ℚ) - (1 - 0) * (pe / (1 / 2000)) ≤ 0 := by nlinarith
  rw [min_eq_left (hx.trans zero_le_one), max_eq_left hx]

/-- Claim C8: a freshly constructed voice that never receives a note-on has
envelope amplitude 0 before every sample it produces, and both produced
output samples are 0, for every number of produced samples. -/
theorem silent_voice_forever (n : ℕ) :
    (MonoReplicant.default.run defaultParams n).envelope.alpha defaultParams = 0 ∧
      (MonoReplicant.default.run defaultParams n).output_left defaultParams = 0 ∧
      (MonoReplicant.default.run defaultParams n).output_right defaultParams = 0 := by
  have hn : (0:ℚ) ≤ (n : ℚ) * (1 / 44100) := by positivity
  have hpe : (1:ℚ) / 2000 ≤ 1 / 2000 + n * (1 / 44100) := by linarith
  have halpha : (MonoReplicant.default.run defaultParams n).envelope.alpha
      defaultParams = 0 := by
    rw [run_default_eq n]
    exact alpha_release_expired hpe
  refine ⟨halpha, ?_, ?_⟩
  · simp [MonoReplicant.output_left, halpha]
  · simp [MonoReplicant.output_right, halpha]

/-- Claim C9: the pitch mapping sends MIDI note 69 to exactly 440 Hz, note
81 to 880 Hz (one octave up), and is total and positive on the whole MIDI
range 0..127 (in real arithmetic). -/
theorem midi_pitch_to_freq_spec :
    midi_pitch_to_freq 69 = 440 ∧ midi_pitch_to_freq 81 = 880 ∧
      ∀ pitch : ℕ, pitch ≤ 127 → 0 < midi_pitch_to_freq pitch := by
  refine ⟨?_, ?_, fun pitch _ => ?_⟩
  · have h : ((u8_as_i8 69 - 69 : ℤ) : ℝ) / 12 = 0 := by
      norm_num [u8_as_i8]
    unfold midi_pitch_to_freq
    rw [h, Real.rpow_zero, one_mul]
  · have h : ((u8_as_i8 81 - 69 : ℤ) : ℝ) / 12 = 1 := by
      norm_num [u8_as_i8]
    unfold midi_pitch_to_freq
    rw [h, Real.rpow_one]
    norm_num
  · unfold midi_pitch_to_freq
    positivity

/-- Witness for C9: the mapped frequency of middle C (note 60) is
positive. -/
theorem midi_pitch_to_freq_spec_witness : 0 < midi_pitch_to_freq 60 :=
  midi_pitch_to_freq_spec.2.2 60 (by norm_num)

end Replicant
